import Mathlib

/-!
Shallow embedding of the fastrpc connection multiplexer (Go package
`fastrpc`: `client.go`, `server.go`, `common.go`) and proofs about the
behaviour its specification describes.

Conventions of the embedding:
* Go `uint32` arithmetic is `Nat` arithmetic taken modulo `2^32`.
* Go `time.Duration` values are nonnegative nanosecond counts (`Nat`);
  absolute instants are `Nat` nanoseconds.
* A Go channel of capacity `cap` is a FIFO `List` whose length never
  exceeds `cap`; a non-blocking send succeeds exactly when the list is
  shorter than `cap`, a non-blocking receive succeeds exactly when the
  list is nonempty.
* Go `nil`-able fields (`wi.resp`, `wi.releaseReq`, `error` values)
  become `Option` values.
* A Go `panic` becomes the `none` result of an `Option`-valued function.
-/

namespace Fastrpc

/-- Modulus of Go `uint32` arithmetic. -/
def U32 : Nat := 4294967296

/-- `DefaultMaxPendingRequests` from `common.go`. -/
def DefaultMaxPendingRequests : Nat := 1000

/-- `DefaultConcurrency` from `common.go`. -/
def DefaultConcurrency : Nat := 10000

/-- `Client.maxPendingRequests` from `client.go`: a non-positive
configured value falls back to `DefaultMaxPendingRequests`. -/
def maxPendingRequests (cfgMaxPendingRequests : Int) : Int :=
  if cfgMaxPendingRequests ≤ 0 then DefaultMaxPendingRequests else cfgMaxPendingRequests

/-- `Server.concurrency` from `server.go`: a non-positive configured
value falls back to `DefaultConcurrency`. -/
def serverConcurrency (cfgConcurrency : Int) : Int :=
  if cfgConcurrency ≤ 0 then DefaultConcurrency else cfgConcurrency

/-- The `maxBatchDelay` normalisation performed at the top of both
`Client.connWriter` and `Server.connWriter`: a negative configured
`MaxBatchDelay` is replaced by `0`. -/
def effectiveMaxBatchDelay (cfgMaxBatchDelay : Int) : Int :=
  if cfgMaxBatchDelay < 0 then 0 else cfgMaxBatchDelay

/-- Errors observable on a client work item's completion channel.
`connectionErr` stands for the various transport errors recorded as the
client's last error (dial failure, connection closed, codec error, ...);
the `Nat` tag distinguishes distinct error values. -/
inductive ClientErr where
  | timeout
  | pendingRequestsOverflow
  | connectionErr (tag : Nat)
deriving DecidableEq, Repr

/-- `clientWorkItem` from `client.go`. `req` is an opaque identifier of
the request payload; `resp` is `some` exactly when a response reader was
attached (request-reply item); `releaseReq` is `some` exactly when a
release hook was attached (fire-and-forget item from `SendNowait`). -/
structure ClientWorkItem where
  req : Nat
  resp : Option Nat
  releaseReq : Option Nat
  deadline : Nat
deriving DecidableEq, Repr

/-- `releaseClientWorkItem` from `client.go`, abstracted to its release
hook behaviour: returns the number of times `wi.releaseReq(wi.req)` is
invoked, or `none` when the function panics (`releaseReq` set together
with `resp` trips `panic("BUG: clientWorkItem.resp must be nil")`). -/
def releaseClientWorkItem (wi : ClientWorkItem) : Option Nat :=
  match wi.releaseReq with
  | some _ => match wi.resp with
    | some _ => none
    | none => some 1
  | none => some 0

/-- `Client.getError` from `client.go`: the recorded last error, when
present, is substituted for the error being delivered. `err` may be the
Go `nil` error (`none`). -/
def getError (lastErr : Option ClientErr) (err : Option ClientErr) : Option ClientErr :=
  match lastErr with
  | some e => some e
  | none => err

/-- Observable effect of `Client.doneError` on a work item. -/
inductive DoneEffect where
  | completed (delivered : Option ClientErr)
  | released (hookCalls : Nat)
  | panicked
deriving DecidableEq, Repr

/-- `Client.doneError` from `client.go`: a request-reply item receives
`getError err` on its completion channel; a fire-and-forget item is
released instead. -/
def doneError (lastErr : Option ClientErr) (wi : ClientWorkItem) (err : Option ClientErr) :
    DoneEffect :=
  match wi.resp with
  | some _ => .completed (getError lastErr err)
  | none =>
    match releaseClientWorkItem wi with
    | some k => .released k
    | none => .panicked

/-- Non-blocking channel send (`select { case ch <- wi: ... default: }`)
on a channel of capacity `cap`. -/
def trySend (cap : Nat) (q : List ClientWorkItem) (wi : ClientWorkItem) :
    Option (List ClientWorkItem) :=
  if q.length < cap then some (q ++ [wi]) else none

/-- Non-blocking channel receive (`select { case x := <-ch: ... default: }`). -/
def tryReceive (q : List ClientWorkItem) : Option (ClientWorkItem × List ClientWorkItem) :=
  match q with
  | [] => none
  | x :: xs => some (x, xs)

/-- Result of `Client.enqueueWorkItem`: the returned error, the queue
afterwards, and the items passed to `Client.doneError` together with the
error argument used there. -/
structure EnqueueResult where
  err : Option ClientErr
  queue : List ClientWorkItem
  doneCalls : List (ClientWorkItem × ClientErr)
deriving DecidableEq, Repr

/-- `Client.enqueueWorkItem` from `client.go`, with the channel state
passed explicitly. The fast path is a non-blocking send; on a full
queue, when `PrioritizeNewRequests` is unset the call fails with
`ErrPendingRequestsOverflow`, otherwise the oldest queued item is
evicted by a non-blocking receive, completed with overflow, and the new
item is enqueued by a second non-blocking send; failure of either
non-blocking step yields the overflow error. -/
def enqueueWorkItem (prioritizeNewRequests : Bool) (cap : Nat)
    (q : List ClientWorkItem) (wi : ClientWorkItem) : EnqueueResult :=
  match trySend cap q wi with
  | some q' => ⟨none, q', []⟩
  | none =>
    if !prioritizeNewRequests then
      ⟨some .pendingRequestsOverflow, q, []⟩
    else
      match tryReceive q with
      | some (old, q1) =>
        match trySend cap q1 wi with
        | some q2 => ⟨none, q2, [(old, .pendingRequestsOverflow)]⟩
        | none => ⟨some .pendingRequestsOverflow, q1, [(old, .pendingRequestsOverflow)]⟩
      | none => ⟨some .pendingRequestsOverflow, q, []⟩

/-- `Client.incPendingRequests` from `client.go`: atomic `uint32`
increment returning the new value. -/
def incPendingRequests (pendingRequestsCount : Nat) : Nat :=
  (pendingRequestsCount + 1) % U32

/-- The fast-path admission check at the top of `Client.DoDeadline`:
`n := c.incPendingRequests()` followed by `if n >= c.maxPendingRequests()`.
Returns `true` when the call is rejected with
`ErrPendingRequestsOverflow`. -/
def doDeadlineFastPathReject (cfgMaxPendingRequests : Int) (pendingRequestsCount : Nat) :
    Bool :=
  maxPendingRequests cfgMaxPendingRequests ≤ (incPendingRequests pendingRequestsCount : Int)

/-- The client state touched by `SendNowait`: the atomic
`pendingRequestsCount` and the `pendingRequests` channel. -/
structure ClientState where
  pendingRequestsCount : Nat
  pendingRequests : List ClientWorkItem
deriving DecidableEq, Repr

/-- `Client.SendNowait` from `client.go`: builds a fire-and-forget work
item (no response reader, release hook attached, deadline
`now + 10 s`), enqueues it, and releases it on enqueue failure. Returns
the success flag and the state afterwards. -/
def sendNowait (prioritizeNewRequests : Bool) (cap : Nat) (st : ClientState)
    (req releaseHook now : Nat) : Bool × ClientState :=
  let wi : ClientWorkItem := ⟨req, none, some releaseHook, now + 10000000000⟩
  let r := enqueueWorkItem prioritizeNewRequests cap st.pendingRequests wi
  match r.err with
  | none => (true, ⟨st.pendingRequestsCount, r.queue⟩)
  | some _ => (false, ⟨st.pendingRequestsCount, r.queue⟩)

/-- The nonce-counter step in `Client.connWriter` for a request-reply
item: `nextNonce++; if nextNonce == 0 { nextNonce = 1 }` in `uint32`
arithmetic. -/
def nextNonceStep (nextNonce : Nat) : Nat :=
  let n := (nextNonce + 1) % U32
  if n = 0 then 1 else n

/-- The client's pending-response map as an association list keyed by
nonce. -/
abbrev PendingMap := List (Nat × ClientWorkItem)

/-- `delete(c.pendingResponses, nonce)`. -/
def eraseNonce (m : PendingMap) (k : Nat) : PendingMap :=
  m.filter (fun p => p.1 != k)

/-- The per-connection writer state: the nonce counter and the
pending-response map. -/
structure ConnState where
  nextNonce : Nat
  pendingResponses : PendingMap
deriving DecidableEq, Repr

/-- Initial per-connection state: `var nextNonce uint32` starts at zero
and `Client.init` allocates an empty pending-response map. -/
def connInit : ConnState := ⟨0, []⟩

/-- Outcome of the nonce-assignment and map-insertion portion of one
`Client.connWriter` iteration. -/
inductive WriterSendResult where
  | ok (s : ConnState) (wireNonce : Nat)
  | fatalCollision (s : ConnState)
deriving DecidableEq, Repr

/-- The nonce-assignment and bookkeeping of one `Client.connWriter`
iteration that reached the write (deadline not expired, write
succeeded): a fire-and-forget item gets wire nonce `0` and is released
without touching the map; a request-reply item gets the incremented
counter value (skipping zero) and is inserted under that nonce, a
collision being the fatal `request ID overflow` error. -/
def connWriterSend (s : ConnState) (wi : ClientWorkItem) : WriterSendResult :=
  match wi.resp with
  | none => .ok s 0
  | some _ =>
    let nn := nextNonceStep s.nextNonce
    match s.pendingResponses.lookup nn with
    | some _ => .fatalCollision ⟨nn, s.pendingResponses⟩
    | none => .ok ⟨nn, (nn, wi) :: s.pendingResponses⟩ nn

/-- The transitions that touch the nonce counter or the pending-response
map: a writer iteration (successful or fatal on collision), the reader
consuming a frame (`delete` after lookup), the reaper removing expired
entries (`unblockStaleResponses`), and the worker draining the map on
connection reset. -/
inductive ConnStep : ConnState → ConnState → Prop where
  | writerOk (wi : ClientWorkItem) (s s' : ConnState) (n : Nat)
      (h : connWriterSend s wi = .ok s' n) : ConnStep s s'
  | writerCollision (wi : ClientWorkItem) (s s' : ConnState)
      (h : connWriterSend s wi = .fatalCollision s') : ConnStep s s'
  | readerConsume (s : ConnState) (n : Nat) :
      ConnStep s ⟨s.nextNonce, eraseNonce s.pendingResponses n⟩
  | reapStale (s : ConnState) (now : Nat) :
      ConnStep s ⟨s.nextNonce, s.pendingResponses.filter (fun p => !(p.2.deadline < now))⟩
  | drainOnReset (s : ConnState) : ConnStep s ⟨s.nextNonce, []⟩

/-- The pending-response map invariant: every key is nonzero and no key
occurs twice. -/
def MapInv (m : PendingMap) : Prop :=
  (∀ p ∈ m, p.1 ≠ 0) ∧ (m.map Prod.fst).Nodup

/-- Connection-state invariant. -/
def ConnInv (s : ConnState) : Prop := MapInv s.pendingResponses

/-- `Client.unblockStaleResponses` from `client.go`: under the map lock,
every entry whose deadline has passed is deleted and completed via
`doneError(wi, ErrTimeout)`. Returns the remaining map, the completion
effects, and whether anything was unblocked. -/
def unblockStaleResponses (lastErr : Option ClientErr) (now : Nat) (m : PendingMap) :
    PendingMap × List DoneEffect × Bool :=
  (m.filter (fun p => !(p.2.deadline < now)),
   (m.filter (fun p => p.2.deadline < now)).map (fun p => doneError lastErr p.2 (some .timeout)),
   !(m.filter (fun p => p.2.deadline < now)).isEmpty)

/-- Which object consumes an incoming response payload in
`Client.connReader`. -/
inductive ReadTarget where
  | pendingItem
  | zeroResponse
deriving DecidableEq, Repr

/-- Result of one `Client.connReader` iteration after the 4-byte nonce
was read. -/
structure ReaderIterationResult where
  map : PendingMap
  target : ReadTarget
  completions : List DoneEffect
  fatalErr : Option ClientErr
deriving DecidableEq, Repr

/-- One iteration of `Client.connReader` after the nonce was read: look
up the nonce and delete it; pick the response object (the pending item's
reader when present, otherwise the dedicated `zeroResp`); invoke
`ReadResponse`; on parse failure complete a known item with the error
and terminate, on success signal `done <- nil` for a known item (a known
item without a response reader trips `panic("BUG: ...")`) and continue.
`parseOk` tells whether `ReadResponse` succeeded and `parseErr` stands
for the wrapped `cannot read response with ID` error otherwise. -/
def connReaderIteration (lastErr : Option ClientErr) (m : PendingMap) (nonce : Nat)
    (parseOk : Bool) (parseErr : ClientErr) : ReaderIterationResult :=
  let wi := m.lookup nonce
  let m' := eraseNonce m nonce
  let target := match wi with
    | some w => match w.resp with
      | some _ => ReadTarget.pendingItem
      | none => ReadTarget.zeroResponse
    | none => ReadTarget.zeroResponse
  if parseOk then
    match wi with
    | some w =>
      ⟨m', target, [match w.resp with | none => .panicked | some _ => .completed none], none⟩
    | none => ⟨m', target, [], none⟩
  else
    match wi with
    | some w => ⟨m', target, [doneError lastErr w (some parseErr)], some parseErr⟩
    | none => ⟨m', target, [], some parseErr⟩

/-- 10 ms in nanoseconds: the reaper's initial and minimum sleep. -/
def reaperMinSleep : Nat := 10000000

/-- 1 s in nanoseconds: the reaper's maximum sleep. -/
def reaperMaxSleep : Nat := 1000000000

/-- `time.Duration(0.7 * float64(d))` from `Client.unblockStaleItems`,
modelled as the rational product rounded down. For the durations the
reaper can hold (at most `10^9` ns) the `float64` computation agrees
with `⌊7d/10⌋` up to one unit, and the clamping below makes the
difference unobservable in the stated bounds. -/
def shrinkSleep (d : Nat) : Nat := 7 * d / 10

/-- `time.Duration(1.5 * float64(d))` from `Client.unblockStaleItems`.
`1.5` and every multiple of one half below `2^52` are exact `float64`
values, so for the reaper's range this is exactly `⌊3d/2⌋`. -/
def growSleep (d : Nat) : Nat := 3 * d / 2

/-- The sleep-duration update of one `Client.unblockStaleItems`
iteration: shrink by ×0.7 clamped below at 10 ms when a sweep fired a
completion, otherwise grow by ×1.5 clamped above at 1 s. -/
def nextSleepDuration (fired : Bool) (d : Nat) : Nat :=
  if fired then
    max reaperMinSleep (shrinkSleep d)
  else
    min reaperMaxSleep (growSleep d)

/-- The reaper's sleep duration after a given history of iterations
(`true` = that iteration completed at least one stale item), starting
from the initial 10 ms. -/
def sleepAfter (fires : List Bool) : Nat :=
  fires.foldl (fun d f => nextSleepDuration f d) reaperMinSleep

/-- Errors `io.ReadFull` can report when reading the 4-byte nonce. -/
inductive ReadFullErr where
  | eof
  | unexpectedEOF
  | other (tag : Nat)
deriving DecidableEq, Repr

/-- Result of `io.ReadFull(br, buf[:4])`: bytes read and error. -/
structure ReadFullResult where
  n : Nat
  err : Option ReadFullErr
deriving DecidableEq, Repr

/-- The `io.ReadFull` contract for a 4-byte buffer: no error exactly
when all 4 bytes were read, `io.EOF` only when no byte was read (an EOF
after a partial read is converted to `io.ErrUnexpectedEOF`), and never
more than 4 bytes. -/
def ReadFullResult.WF (r : ReadFullResult) : Prop :=
  (r.err = none ↔ r.n = 4) ∧ (r.err = some .eof → r.n = 0) ∧ r.n ≤ 4

/-- Fatal error messages emitted when the nonce read fails. -/
inductive NonceReadMsg where
  | cannotReadResponseID
  | cannotReadRequestID
deriving DecidableEq, Repr

/-- Outcome of the nonce read at the top of a reader iteration. -/
inductive NonceReadOutcome where
  | cleanStop
  | fatal (msg : NonceReadMsg)
  | proceed
deriving DecidableEq, Repr

/-- The nonce-read handling in `Client.connReader`: an `io.EOF` error is
a clean termination (`return nil`), any other error is the fatal
`cannot read response ID` error. -/
def clientNonceRead (r : ReadFullResult) : NonceReadOutcome :=
  match r.err with
  | none => .proceed
  | some e => if e = .eof then .cleanStop else .fatal .cannotReadResponseID

/-- The nonce-read handling in `Server.connReader`: an error with zero
bytes read is a clean termination (`return nil`), any other error is the
fatal `cannot read request ID` error. -/
def serverNonceRead (r : ReadFullResult) : NonceReadOutcome :=
  match r.err with
  | none => .proceed
  | some _ => if r.n = 0 then .cleanStop else .fatal .cannotReadRequestID

/-- Abstract identity of a server handler context (`HandlerCtx`
pointer). -/
abbrev Ctx := Nat

/-- A request's 4-byte nonce, kept verbatim (`wi.nonce [4]byte`). -/
structure Nonce4 where
  b0 : Nat
  b1 : Nat
  b2 : Nat
  b3 : Nat
deriving DecidableEq, Repr

/-- `isZeroNonce` from `server.go`. -/
def isZeroNonce (n : Nonce4) : Bool :=
  n.b0 == 0 && n.b1 == 0 && n.b2 == 0 && n.b3 == 0

/-- `serverWorkItem` from `server.go`. -/
structure ServerWorkItem where
  ctx : Ctx
  nonce : Nonce4
deriving DecidableEq, Repr

/-- Observable outcome of `Server.handleRequest`: the item handed to
`pushPendingResponse` (if any), whether the original work item was
recycled to the pool, and whether the dispatcher panicked (handler
returned `nil` for a request expecting a response). -/
structure HandleResult where
  emitted : Option ServerWorkItem
  recycled : Bool
  panicked : Bool
deriving DecidableEq, Repr

/-- `Server.handleRequest` from `server.go`. The handler returns either
the context it was given or a new one (`none` models a `nil` return).
For a zero nonce nothing is emitted and the item is recycled exactly
when the handler returned the same context; for a nonzero nonce the
emitted item is the original one, or a freshly acquired one carrying the
saved nonce and the handler's new context. -/
def handleRequest (handler : Ctx → Option Ctx) (wi : ServerWorkItem) : HandleResult :=
  let nonce := wi.nonce
  let ctxNew := handler wi.ctx
  if isZeroNonce nonce then
    { emitted := none, recycled := ctxNew = some wi.ctx, panicked := false }
  else
    match ctxNew with
    | none => { emitted := none, recycled := false, panicked := true }
    | some c =>
      if c = wi.ctx then
        { emitted := some wi, recycled := false, panicked := false }
      else
        { emitted := some ⟨c, nonce⟩, recycled := false, panicked := false }

/-- `pushPendingResponse` from `server.go` on a channel of capacity
`cap`: a non-blocking send, then a blocking send racing the stop signal.
`stopFires` tells which branch of the slow-path `select` fires when the
channel is full; `none` models the push abandoned by stop. -/
def pushPendingResponse (cap : Nat) (q : List ServerWorkItem) (wi : ServerWorkItem)
    (stopFires : Bool) : Option (List ServerWorkItem) :=
  if q.length < cap then some (q ++ [wi])
  else if stopFires then none
  else some (q ++ [wi])

/-- Terminal dispositions a queued client work item can take before
reaching the pending-response map, one per code site in `client.go`. -/
inductive QueuePhase where
  | enqueueFailed
  | evictedByOverflow
  | reapedExpired
  | reenqueueFailed
  | writerExpired
  | writerIOError
  | sent
deriving DecidableEq, Repr

/-- Dispositions of a request-reply item that was sent and inserted into
the pending-response map. -/
inductive MapPhase where
  | readerSuccess
  | readerIOError
  | reapedExpired
  | drainedOnReset
deriving DecidableEq, Repr

/-- Release-hook invocations performed by `Client.doneError` (`none`
models the panic in `releaseClientWorkItem`). -/
def doneErrorHookCalls (wi : ClientWorkItem) : Option Nat :=
  match wi.resp with
  | some _ => some 0
  | none => releaseClientWorkItem wi

/-- Release-hook invocations on each pre-map disposition:
`enqueueFailed` releases the item (`SendNowait` failure path, or the
deferred release in `DoDeadline`), a sent fire-and-forget item is
released by the writer, a sent request-reply item is inserted into the
map, and every other disposition goes through `Client.doneError`. -/
def queuePhaseHookCalls (p : QueuePhase) (wi : ClientWorkItem) : Option Nat :=
  match p with
  | .enqueueFailed => releaseClientWorkItem wi
  | .sent =>
    match wi.resp with
    | none => releaseClientWorkItem wi
    | some _ => some 0
  | _ => doneErrorHookCalls wi

/-- Release-hook invocations on each map-resident disposition: the
reader signals `done <- nil` on success, every other disposition goes
through `Client.doneError`. -/
def mapPhaseHookCalls (p : MapPhase) (wi : ClientWorkItem) : Option Nat :=
  match p with
  | .readerSuccess => some 0
  | _ => doneErrorHookCalls wi

/-- A complete lifecycle of a queued client work item. -/
structure Lifecycle where
  queuePhase : QueuePhase
  mapPhase : Option MapPhase
deriving DecidableEq, Repr

/-- A lifecycle is well-formed for an item when a map phase is present
exactly for a request-reply item whose frame was sent. -/
def LifecycleWF (wi : ClientWorkItem) (L : Lifecycle) : Prop :=
  L.mapPhase ≠ none ↔ (L.queuePhase = .sent ∧ wi.resp ≠ none)

/-- Total release-hook invocations over a complete lifecycle. A
fire-and-forget item is disposed of exactly once at its pre-map
disposition; a request-reply item additionally passes through its map
disposition (when sent) and the deferred `releaseClientWorkItem` in
`DoDeadline`. `none` when any step panics. -/
def lifecycleHookCalls (wi : ClientWorkItem) (L : Lifecycle) : Option Nat :=
  match wi.resp with
  | none => queuePhaseHookCalls L.queuePhase wi
  | some _ =>
    match queuePhaseHookCalls L.queuePhase wi with
    | none => none
    | some a =>
      match (match L.mapPhase with
             | none => some 0
             | some p => mapPhaseHookCalls p wi) with
      | none => none
      | some b =>
        match releaseClientWorkItem wi with
        | none => none
        | some c => some (a + b + c)

/-! Helper lemmas. -/

theorem shrinkSleep_le (d : Nat) : shrinkSleep d ≤ d := by
  unfold shrinkSleep
  calc 7 * d / 10 ≤ 10 * d / 10 := Nat.div_le_div_right (by omega)
    _ = d := Nat.mul_div_cancel_left d (by norm_num)

theorem le_growSleep (d : Nat) : d ≤ growSleep d := by
  unfold growSleep
  rw [Nat.le_div_iff_mul_le (by norm_num)]
  omega

theorem nextSleepDuration_bounds (fired : Bool) (d : Nat)
    (h1 : reaperMinSleep ≤ d) (h2 : d ≤ reaperMaxSleep) :
    reaperMinSleep ≤ nextSleepDuration fired d ∧ nextSleepDuration fired d ≤ reaperMaxSleep := by
  cases fired with
  | true =>
    unfold nextSleepDuration
    refine ⟨le_max_left _ _, max_le (by unfold reaperMinSleep reaperMaxSleep; omega) ?_⟩
    exact le_trans (shrinkSleep_le d) h2
  | false =>
    unfold nextSleepDuration
    refine ⟨le_min (by unfold reaperMinSleep reaperMaxSleep; omega) ?_, min_le_left _ _⟩
    exact le_trans h1 (le_growSleep d)

theorem sleep_foldl_bounds (fires : List Bool) (d : Nat)
    (h1 : reaperMinSleep ≤ d) (h2 : d ≤ reaperMaxSleep) :
    reaperMinSleep ≤ fires.foldl (fun d f => nextSleepDuration f d) d ∧
    fires.foldl (fun d f => nextSleepDuration f d) d ≤ reaperMaxSleep := by
  induction fires generalizing d with
  | nil => exact ⟨h1, h2⟩
  | cons f t ih =>
    have hb := nextSleepDuration_bounds f d h1 h2
    exact ih (nextSleepDuration f d) hb.1 hb.2

/-! Claim theorems. -/

/-- C10: non-positive configuration values fall back to the documented
defaults: a `Client.MaxPendingRequests` of zero or less behaves as 1000,
a `Server.Concurrency` of zero or less behaves as 10000, and a negative
`MaxBatchDelay` is treated as 0; hence the effective queue capacity and
concurrency cap are always positive and the effective flush delay is
never negative. -/
theorem claim10_config_defaults :
    (∀ cfg : Int, cfg ≤ 0 → maxPendingRequests cfg = 1000) ∧
    (∀ cfg : Int, cfg ≤ 0 → serverConcurrency cfg = 10000) ∧
    (∀ d : Int, d < 0 → effectiveMaxBatchDelay d = 0) ∧
    (∀ cfg : Int, 0 < maxPendingRequests cfg) ∧
    (∀ cfg : Int, 0 < serverConcurrency cfg) ∧
    (∀ d : Int, 0 ≤ effectiveMaxBatchDelay d) := by
  refine ⟨fun cfg h => ?_, fun cfg h => ?_, fun d h => ?_, fun cfg => ?_, fun cfg => ?_,
    fun d => ?_⟩ <;>
    simp only [maxPendingRequests, serverConcurrency, effectiveMaxBatchDelay,
      DefaultMaxPendingRequests, DefaultConcurrency] <;>
    split <;> omega

/-- Witness for C10 at concrete configuration values. -/
theorem claim10_witness :
    maxPendingRequests 0 = 1000 ∧ serverConcurrency (-3) = 10000 ∧
    effectiveMaxBatchDelay (-1) = 0 ∧ 0 < maxPendingRequests 5 ∧
    0 < serverConcurrency 0 ∧ 0 ≤ effectiveMaxBatchDelay 7 :=
  ⟨claim10_config_defaults.1 0 (by decide),
   claim10_config_defaults.2.1 (-3) (by decide),
   claim10_config_defaults.2.2.1 (-1) (by decide),
   claim10_config_defaults.2.2.2.1 5,
   claim10_config_defaults.2.2.2.2.1 0,
   claim10_config_defaults.2.2.2.2.2 7⟩

/-- C9: for a well-formed `io.ReadFull` result on the 4-byte nonce, both
the client reader and the server reader treat end-of-file with zero
bytes read as clean termination, and a short read of 1-3 bytes (with
`io.ErrUnexpectedEOF` or any other error) as the fatal
`cannot read ... ID` error. -/
theorem claim9_nonce_read :
    ∀ r : ReadFullResult, r.WF →
      (r.n = 0 ∧ r.err = some .eof →
        clientNonceRead r = .cleanStop ∧ serverNonceRead r = .cleanStop) ∧
      (∀ e, 1 ≤ r.n → r.n ≤ 3 → r.err = some e →
        clientNonceRead r = .fatal .cannotReadResponseID ∧
        serverNonceRead r = .fatal .cannotReadRequestID) := by
  intro r hwf
  constructor
  · rintro ⟨hn, he⟩
    constructor
    · simp [clientNonceRead, he]
    · simp [serverNonceRead, he, hn]
  · intro e h1 h3 he
    have hne : e ≠ .eof := by
      intro h
      subst h
      have := hwf.2.1 he
      omega
    constructor
    · simp [clientNonceRead, he, hne]
    · have : r.n ≠ 0 := by omega
      simp [serverNonceRead, he, this]

/-- Witness for C9: a zero-byte EOF and a 2-byte short read. -/
theorem claim9_witness :
    (clientNonceRead ⟨0, some .eof⟩ = .cleanStop ∧
     serverNonceRead ⟨0, some .eof⟩ = .cleanStop) ∧
    (clientNonceRead ⟨2, some .unexpectedEOF⟩ = .fatal .cannotReadResponseID ∧
     serverNonceRead ⟨2, some .unexpectedEOF⟩ = .fatal .cannotReadRequestID) := by
  constructor
  · exact (claim9_nonce_read ⟨0, some .eof⟩ ⟨by decide, by decide, by decide⟩).1 ⟨rfl, rfl⟩
  · exact (claim9_nonce_read ⟨2, some .unexpectedEOF⟩ ⟨by decide, by decide, by decide⟩).2
      .unexpectedEOF (by decide) (by decide) rfl

/-- C8: after a firing iteration the reaper's sleep shrinks by ×0.7
clamped below at 10 ms, after a non-firing iteration it grows by ×1.5
clamped above at 1 s, and starting from the initial 10 ms it stays in
`[10 ms, 1 s]` after every history of iterations. -/
theorem claim8_reaper_sleep :
    (∀ d, reaperMinSleep ≤ d → d ≤ reaperMaxSleep →
      nextSleepDuration true d = max reaperMinSleep (shrinkSleep d) ∧
      reaperMinSleep ≤ nextSleepDuration true d ∧
      nextSleepDuration true d ≤ reaperMaxSleep) ∧
    (∀ d, reaperMinSleep ≤ d → d ≤ reaperMaxSleep →
      nextSleepDuration false d = min reaperMaxSleep (growSleep d) ∧
      reaperMinSleep ≤ nextSleepDuration false d ∧
      nextSleepDuration false d ≤ reaperMaxSleep) ∧
    (∀ fires : List Bool,
      reaperMinSleep ≤ sleepAfter fires ∧ sleepAfter fires ≤ reaperMaxSleep) := by
  refine ⟨fun d h1 h2 => ⟨rfl, nextSleepDuration_bounds true d h1 h2⟩,
          fun d h1 h2 => ⟨rfl, nextSleepDuration_bounds false d h1 h2⟩,
          fun fires => sleep_foldl_bounds fires reaperMinSleep le_rfl (by decide)⟩

/-- Witness for C8 at the initial 10 ms duration. -/
theorem claim8_witness :
    nextSleepDuration true reaperMinSleep = max reaperMinSleep (shrinkSleep reaperMinSleep) ∧
    reaperMinSleep ≤ nextSleepDuration false reaperMinSleep ∧
    reaperMinSleep ≤ sleepAfter [false, true, false] ∧
    sleepAfter [false, true, false] ≤ reaperMaxSleep :=
  ⟨(claim8_reaper_sleep.1 reaperMinSleep le_rfl (by decide)).1,
   (claim8_reaper_sleep.2.1 reaperMinSleep le_rfl (by decide)).2.1,
   (claim8_reaper_sleep.2.2 [false, true, false]).1,
   (claim8_reaper_sleep.2.2 [false, true, false]).2⟩

/-- C4: on a full pending-request queue, with `PrioritizeNewRequests`
set the oldest queued item is evicted and completed with the overflow
error while the new item takes its place; when the non-blocking evict
yields nothing the enqueue returns the overflow error; with
`PrioritizeNewRequests` unset the enqueue fails immediately with the
overflow error and the queue is unchanged. -/
theorem claim4_overflow_policy :
    ∀ (cap : Nat) (q : List ClientWorkItem) (wi : ClientWorkItem),
      q.length = cap →
      (∀ old rest, q = old :: rest →
        enqueueWorkItem true cap q wi =
          ⟨none, rest ++ [wi], [(old, .pendingRequestsOverflow)]⟩) ∧
      (q = [] →
        enqueueWorkItem true cap q wi = ⟨some .pendingRequestsOverflow, q, []⟩) ∧
      enqueueWorkItem false cap q wi = ⟨some .pendingRequestsOverflow, q, []⟩ := by
  intro cap q wi hlen
  have hfull : ¬ q.length < cap := by omega
  refine ⟨?_, ?_, ?_⟩
  · intro old rest hq
    subst hq
    have hrest : rest.length < cap := by
      simp only [List.length_cons] at hlen
      omega
    have hfull' : ¬ rest.length + 1 < cap := by
      simp only [List.length_cons] at hlen
      omega
    simp [enqueueWorkItem, trySend, tryReceive, hfull', hrest]
  · intro hq
    subst hq
    have hzero : ¬ (0 : Nat) < cap := by
      simp only [List.length_nil] at hlen
      omega
    simp [enqueueWorkItem, trySend, tryReceive, hzero]
  · simp [enqueueWorkItem, trySend, hfull]

/-- Witness for C4: a full queue of capacity 2 with priority, the
degenerate empty full queue of capacity 0, and a full queue without
priority. -/
theorem claim4_witness :
    enqueueWorkItem true 2
        [⟨1, none, none, 0⟩, ⟨2, none, none, 0⟩] ⟨3, none, none, 0⟩ =
      ⟨none, [⟨2, none, none, 0⟩, ⟨3, none, none, 0⟩],
        [(⟨1, none, none, 0⟩, .pendingRequestsOverflow)]⟩ ∧
    enqueueWorkItem true 0 [] ⟨3, none, none, 0⟩ =
      ⟨some .pendingRequestsOverflow, [], []⟩ ∧
    enqueueWorkItem false 2
        [⟨1, none, none, 0⟩, ⟨2, none, none, 0⟩] ⟨3, none, none, 0⟩ =
      ⟨some .pendingRequestsOverflow, [⟨1, none, none, 0⟩, ⟨2, none, none, 0⟩], []⟩ :=
  ⟨(claim4_overflow_policy 2 [⟨1, none, none, 0⟩, ⟨2, none, none, 0⟩] ⟨3, none, none, 0⟩
      rfl).1 ⟨1, none, none, 0⟩ [⟨2, none, none, 0⟩] rfl,
   (claim4_overflow_policy 0 [] ⟨3, none, none, 0⟩ rfl).2.1 rfl,
   (claim4_overflow_policy 2 [⟨1, none, none, 0⟩, ⟨2, none, none, 0⟩] ⟨3, none, none, 0⟩
      rfl).2.2⟩

/-- C5 counterexample: with the default cap of 1000, a `DoDeadline` call
arriving while 999 synchronous requests are pending — strictly fewer
than `max_pending_requests` — is fast-path rejected, contradicting the
claim's parenthetical. -/
theorem claim5_counterexample :
    doDeadlineFastPathReject 1000 999 = true ∧ 999 < 1000 := by
  exact ⟨by decide, by decide⟩

/-- C5 (amended): the fast path rejects exactly when the incremented
counter — the pending count including the arriving call — reaches
`max_pending_requests`, i.e. when at least `max_pending_requests - 1`
synchronous calls were already pending; and `SendNowait` neither
modifies nor reads `pendingRequestsCount`. -/
theorem claim5_fast_path :
    (∀ (cfg : Int) (cnt : Nat), cnt + 1 < U32 →
      (doDeadlineFastPathReject cfg cnt = true ↔
        maxPendingRequests cfg ≤ (cnt : Int) + 1)) ∧
    (∀ (cfg : Int) (cnt : Nat), cnt + 1 < U32 →
      (cnt : Int) + 1 < maxPendingRequests cfg →
        doDeadlineFastPathReject cfg cnt = false) ∧
    (∀ p cap st req rel now,
      ((sendNowait p cap st req rel now).2.pendingRequestsCount =
        st.pendingRequestsCount)) ∧
    (∀ p cap cnt cnt' q req rel now,
      (sendNowait p cap ⟨cnt, q⟩ req rel now).1 =
        (sendNowait p cap ⟨cnt', q⟩ req rel now).1 ∧
      (sendNowait p cap ⟨cnt, q⟩ req rel now).2.pendingRequests =
        (sendNowait p cap ⟨cnt', q⟩ req rel now).2.pendingRequests) := by
  have hmod : ∀ cnt : Nat, cnt + 1 < U32 → incPendingRequests cnt = cnt + 1 := by
    intro cnt h
    simp [incPendingRequests, Nat.mod_eq_of_lt h]
  refine ⟨?_, ?_, ?_, ?_⟩
  · intro cfg cnt h
    simp only [doDeadlineFastPathReject, hmod cnt h, decide_eq_true_eq]
    push_cast
    constructor <;> omega
  · intro cfg cnt h hlt
    simp only [doDeadlineFastPathReject, hmod cnt h, decide_eq_false_iff_not]
    push_cast
    omega
  · intro p cap st req rel now
    unfold sendNowait
    cases h : (enqueueWorkItem p cap st.pendingRequests
        ⟨req, none, some rel, now + 10000000000⟩).err <;> simp [h]
  · intro p cap cnt cnt' q req rel now
    unfold sendNowait
    cases h : (enqueueWorkItem p cap q ⟨req, none, some rel, now + 10000000000⟩).err <;>
      simp [h]

/-- Witness for C5 (amended): cap 5 with 4 pending rejects, cap 5 with 2
pending admits, and `SendNowait` on a concrete state leaves the counter
alone and ignores it. -/
theorem claim5_witness :
    (doDeadlineFastPathReject 5 4 = true ↔ maxPendingRequests 5 ≤ (4 : Int) + 1) ∧
    doDeadlineFastPathReject 5 2 = false ∧
    (sendNowait true 1 ⟨7, []⟩ 1 2 3).2.pendingRequestsCount = 7 ∧
    (sendNowait true 1 ⟨7, []⟩ 1 2 3).1 = (sendNowait true 1 ⟨0, []⟩ 1 2 3).1 :=
  ⟨claim5_fast_path.1 5 4 (by decide),
   claim5_fast_path.2.1 5 2 (by decide) (by decide),
   claim5_fast_path.2.2.1 true 1 ⟨7, []⟩ 1 2 3,
   (claim5_fast_path.2.2.2 true 1 7 0 [] 1 2 3).1⟩

/-- C2 counterexample: with a recorded last error (a dial failure), the
reaper's completion of an expired request-reply item delivers that last
error, not the timeout error — the last error does replace a
reaper-initiated timeout. -/
theorem claim2_counterexample :
    (unblockStaleResponses (some (.connectionErr 0)) 1 [(1, ⟨0, some 0, none, 0⟩)]).2.1 =
      [.completed (some (.connectionErr 0))] ∧
    DoneEffect.completed (some (.connectionErr 0)) ≠ .completed (some .timeout) :=
  ⟨by decide, by decide⟩

/-- C2 (amended): when the reaper completes a deadline-expired entry,
the entry is removed from the map and the error delivered on its
completion channel is `getError(ErrTimeout)` — the recorded last error
when one is present, and the timeout error only when none is
recorded. -/
theorem claim2_last_error_substitution :
    ∀ (lastErr : Option ClientErr) (now : Nat) (m : PendingMap) (p : Nat × ClientWorkItem),
      p ∈ m → p.2.deadline < now → p.2.resp ≠ none →
      (DoneEffect.completed (getError lastErr (some .timeout)) ∈
        (unblockStaleResponses lastErr now m).2.1) ∧
      p ∉ (unblockStaleResponses lastErr now m).1 ∧
      (lastErr = none → getError lastErr (some .timeout) = some .timeout) ∧
      (∀ le, lastErr = some le → getError lastErr (some .timeout) = some le) := by
  intro lastErr now m p hmem hexp hresp
  refine ⟨?_, ?_, ?_, ?_⟩
  · have hpf : p ∈ m.filter (fun p => p.2.deadline < now) := by
      rw [List.mem_filter]
      exact ⟨hmem, by simpa using hexp⟩
    have hdone : doneError lastErr p.2 (some .timeout) =
        .completed (getError lastErr (some .timeout)) := by
      cases h : p.2.resp with
      | none => exact absurd h hresp
      | some r => simp [doneError, h]
    show DoneEffect.completed _ ∈ (m.filter _).map _
    rw [← hdone]
    exact List.mem_map_of_mem _ hpf
  · intro hp
    rw [unblockStaleResponses] at hp
    simp only [List.mem_filter] at hp
    exact absurd hexp (by simpa using hp.2)
  · intro h
    simp [getError, h]
  · intro le h
    simp [getError, h]

/-- Witness for C2 (amended) on a one-entry map with a recorded dial
failure. -/
theorem claim2_witness :
    (DoneEffect.completed (getError (some (.connectionErr 3)) (some .timeout)) ∈
      (unblockStaleResponses (some (.connectionErr 3)) 2 [(1, ⟨0, some 0, none, 1⟩)]).2.1) ∧
    ((1, ⟨0, some 0, none, 1⟩) ∉
      (unblockStaleResponses (some (.connectionErr 3)) 2 [(1, ⟨0, some 0, none, 1⟩)]).1) ∧
    getError (some (ClientErr.connectionErr 3)) (some .timeout) = some (.connectionErr 3) := by
  have h := claim2_last_error_substitution (some (.connectionErr 3)) 2
    [(1, ⟨0, some 0, none, 1⟩)] (1, ⟨0, some 0, none, 1⟩) (by decide) (by decide) (by decide)
  exact ⟨h.1, h.2.1, h.2.2.2 (.connectionErr 3) rfl⟩

theorem lookup_none_keys (m : PendingMap) (k : Nat) (h : m.lookup k = none) :
    ∀ p ∈ m, p.1 ≠ k := by
  induction m with
  | nil => intro p hp; cases hp
  | cons q t ih =>
    intro p hp
    rw [List.lookup] at h
    by_cases hk : k = q.1
    · rw [show (k == q.1) = true from beq_iff_eq.mpr hk] at h
      cases h
    · rw [show (k == q.1) = false from beq_eq_false_iff_ne.mpr hk] at h
      rcases List.mem_cons.mp hp with hp1 | hp1
      · subst hp1
        omega
      · exact ih h p hp1

theorem eraseNonce_of_lookup_none (m : PendingMap) (k : Nat) (h : m.lookup k = none) :
    eraseNonce m k = m := by
  rw [eraseNonce, List.filter_eq_self]
  intro p hp
  have := lookup_none_keys m k h p hp
  simpa using this

/-- C7: an incoming frame whose nonce has no entry in the
pending-response map is consumed with the dedicated zero response
object and the reader continues — map unchanged, no completion signaled,
no error — provided the payload parses. -/
theorem claim7_unknown_nonce :
    ∀ (lastErr : Option ClientErr) (m : PendingMap) (nonce : Nat) (parseErr : ClientErr),
      m.lookup nonce = none →
      connReaderIteration lastErr m nonce true parseErr =
        ⟨m, .zeroResponse, [], none⟩ := by
  intro lastErr m nonce parseErr h
  rw [connReaderIteration]
  simp [h, eraseNonce_of_lookup_none m nonce h]

/-- Witness for C7 on a one-entry map and a frame with an unknown
nonce. -/
theorem claim7_witness :
    connReaderIteration none [(2, ⟨0, some 0, none, 5⟩)] 9 true .timeout =
      ⟨[(2, ⟨0, some 0, none, 5⟩)], .zeroResponse, [], none⟩ :=
  claim7_unknown_nonce none [(2, ⟨0, some 0, none, 5⟩)] 9 .timeout (by decide)

/-- C3: the server dispatcher emits nothing for a zero-nonce request and
recycles the work item exactly when the handler returned the context it
was given; for a nonzero nonce the emitted item carries the original
4-byte nonce verbatim (on the original item or on a freshly acquired one
wrapping the handler's new context), and `pushPendingResponse` appends
exactly that item when it succeeds. -/
theorem claim3_dispatcher :
    ∀ (handler : Ctx → Option Ctx) (wi : ServerWorkItem),
      (isZeroNonce wi.nonce = true →
        (handleRequest handler wi).emitted = none ∧
        ((handleRequest handler wi).recycled = true ↔ handler wi.ctx = some wi.ctx)) ∧
      (isZeroNonce wi.nonce = false →
        ∀ c, handler wi.ctx = some c →
          ∃ e, (handleRequest handler wi).emitted = some e ∧ e.nonce = wi.nonce ∧
            e.ctx = c ∧ (handleRequest handler wi).panicked = false) ∧
      (∀ (cap : Nat) (q : List ServerWorkItem) (e : ServerWorkItem) (stopFires : Bool)
          (q' : List ServerWorkItem),
        pushPendingResponse cap q e stopFires = some q' → q' = q ++ [e]) := by
  intro handler wi
  refine ⟨?_, ?_, ?_⟩
  · intro hz
    constructor
    · simp [handleRequest, hz]
    · simp [handleRequest, hz]
  · intro hz c hc
    by_cases he : c = wi.ctx
    · subst he
      exact ⟨wi, by simp [handleRequest, hz, hc], rfl, rfl, by simp [handleRequest, hz, hc]⟩
    · refine ⟨⟨c, wi.nonce⟩, ?_, rfl, rfl, ?_⟩ <;> simp [handleRequest, hz, hc, he]
  · intro cap q e stopFires q' h
    rw [pushPendingResponse] at h
    split at h
    · exact (Option.some_injective _ h).symm
    · split at h
      · cases h
      · exact (Option.some_injective _ h).symm

/-- Witness for C3: a zero-nonce request whose handler returns the same
context, a nonzero-nonce request whose handler returns a fresh context,
and a successful push. -/
theorem claim3_witness :
    ((handleRequest (fun c => some c) ⟨5, ⟨0, 0, 0, 0⟩⟩).emitted = none ∧
      ((handleRequest (fun c => some c) ⟨5, ⟨0, 0, 0, 0⟩⟩).recycled = true ↔
        (fun c : Ctx => some c) 5 = some 5)) ∧
    (∃ e, (handleRequest (fun _ => some 9) ⟨5, ⟨1, 2, 3, 4⟩⟩).emitted = some e ∧
      e.nonce = ⟨1, 2, 3, 4⟩ ∧ e.ctx = 9 ∧
      (handleRequest (fun _ => some 9) ⟨5, ⟨1, 2, 3, 4⟩⟩).panicked = false) ∧
    ([⟨9, ⟨1, 2, 3, 4⟩⟩] : List ServerWorkItem) = [] ++ [⟨9, ⟨1, 2, 3, 4⟩⟩] :=
  ⟨(claim3_dispatcher (fun c => some c) ⟨5, ⟨0, 0, 0, 0⟩⟩).1 (by decide),
   (claim3_dispatcher (fun _ => some 9) ⟨5, ⟨1, 2, 3, 4⟩⟩).2.1 (by decide) 9 rfl,
   (claim3_dispatcher (fun _ => some 9) ⟨5, ⟨1, 2, 3, 4⟩⟩).2.2 4 [] ⟨9, ⟨1, 2, 3, 4⟩⟩
     false [⟨9, ⟨1, 2, 3, 4⟩⟩] (by decide)⟩

/-- C6: over any complete lifecycle, a fire-and-forget item (absent
`resp`, present `releaseReq`) has its release hook invoked exactly once,
whichever disposition finally releases it; a request-reply item (as the
code builds them, with no release hook) never has a hook invoked; and an
item carrying both `resp` and `releaseReq` makes
`releaseClientWorkItem` panic. -/
theorem claim6_release_hook :
    ∀ (wi : ClientWorkItem) (L : Lifecycle), LifecycleWF wi L →
      (wi.resp = none → wi.releaseReq ≠ none → lifecycleHookCalls wi L = some 1) ∧
      (wi.resp ≠ none → wi.releaseReq = none → lifecycleHookCalls wi L = some 0) ∧
      (wi.resp ≠ none → wi.releaseReq ≠ none → releaseClientWorkItem wi = none) := by
  intro wi L _
  obtain ⟨req, resp, rel, dl⟩ := wi
  obtain ⟨qp, mp⟩ := L
  refine ⟨?_, ?_, ?_⟩
  · intro hresp hrel
    simp only at hresp
    subst hresp
    obtain ⟨r, hr⟩ := Option.ne_none_iff_exists'.mp hrel
    simp only at hr
    subst hr
    cases qp <;>
      simp [lifecycleHookCalls, queuePhaseHookCalls, doneErrorHookCalls,
        releaseClientWorkItem]
  · intro hresp hrel
    simp only at hrel
    subst hrel
    obtain ⟨r, hr⟩ := Option.ne_none_iff_exists'.mp hresp
    simp only at hr
    subst hr
    cases mp with
    | none =>
      cases qp <;>
        simp [lifecycleHookCalls, queuePhaseHookCalls, doneErrorHookCalls,
          releaseClientWorkItem]
    | some p =>
      cases qp <;> cases p <;>
        simp [lifecycleHookCalls, queuePhaseHookCalls, mapPhaseHookCalls,
          doneErrorHookCalls, releaseClientWorkItem]
  · intro hresp hrel
    obtain ⟨r, hr⟩ := Option.ne_none_iff_exists'.mp hresp
    obtain ⟨r', hr'⟩ := Option.ne_none_iff_exists'.mp hrel
    simp only at hr hr'
    subst hr
    subst hr'
    simp [releaseClientWorkItem]

/-- Witness for C6: a sent fire-and-forget item, a request-reply item
read back successfully, and the panic on a both-set item. -/
theorem claim6_witness :
    lifecycleHookCalls ⟨1, none, some 2, 0⟩ ⟨.sent, none⟩ = some 1 ∧
    lifecycleHookCalls ⟨1, some 3, none, 0⟩ ⟨.sent, some .readerSuccess⟩ = some 0 ∧
    releaseClientWorkItem ⟨1, some 3, some 2, 0⟩ = none :=
  ⟨(claim6_release_hook ⟨1, none, some 2, 0⟩ ⟨.sent, none⟩ (by simp [LifecycleWF])).1
      rfl (by simp),
   (claim6_release_hook ⟨1, some 3, none, 0⟩ ⟨.sent, some .readerSuccess⟩
      (by simp [LifecycleWF])).2.1 (by simp) rfl,
   (claim6_release_hook ⟨1, some 3, some 2, 0⟩ ⟨.sent, some .readerSuccess⟩
      (by simp [LifecycleWF])).2.2 (by simp) (by simp)⟩

theorem nextNonceStep_ne_zero (n : Nat) : nextNonceStep n ≠ 0 := by
  show (if (n + 1) % U32 = 0 then 1 else (n + 1) % U32) ≠ 0
  split
  · exact one_ne_zero
  · assumption

theorem mapInv_filter (m : PendingMap) (f : Nat × ClientWorkItem → Bool) (h : MapInv m) :
    MapInv (m.filter f) := by
  constructor
  · intro p hp
    exact h.1 p (List.mem_of_mem_filter hp)
  · exact List.Nodup.sublist (List.Sublist.map Prod.fst (List.filter_sublist m)) h.2

theorem connInv_init : ConnInv connInit :=
  ⟨fun p hp => absurd hp (List.not_mem_nil p), List.nodup_nil⟩

theorem connWriterSend_ok_inv (s s' : ConnState) (wi : ClientWorkItem) (w : Nat)
    (hinv : ConnInv s) (h : connWriterSend s wi = .ok s' w) : ConnInv s' := by
  unfold connWriterSend at h
  cases hresp : wi.resp with
  | none =>
    rw [hresp] at h
    cases h
    exact hinv
  | some r =>
    rw [hresp] at h
    dsimp only at h
    cases hl : s.pendingResponses.lookup (nextNonceStep s.nextNonce) with
    | some w' =>
      rw [hl] at h
      cases h
    | none =>
      rw [hl] at h
      cases h
      refine ⟨?_, ?_⟩
      · intro p hp
        rcases List.mem_cons.mp hp with hp1 | hp1
        · subst hp1
          exact nextNonceStep_ne_zero _
        · exact hinv.1 p hp1
      · refine List.nodup_cons.mpr ⟨?_, hinv.2⟩
        intro hmem
        rcases List.mem_map.mp hmem with ⟨p, hp, hfst⟩
        exact lookup_none_keys _ _ hl p hp hfst

theorem connWriterSend_fatal_inv (s s' : ConnState) (wi : ClientWorkItem)
    (hinv : ConnInv s) (h : connWriterSend s wi = .fatalCollision s') : ConnInv s' := by
  unfold connWriterSend at h
  cases hresp : wi.resp with
  | none =>
    rw [hresp] at h
    cases h
  | some r =>
    rw [hresp] at h
    dsimp only at h
    cases hl : s.pendingResponses.lookup (nextNonceStep s.nextNonce) with
    | some w' =>
      rw [hl] at h
      cases h
      exact hinv
    | none =>
      rw [hl] at h
      cases h

theorem connStep_preserves (s s' : ConnState) (hinv : ConnInv s) (hst : ConnStep s s') :
    ConnInv s' := by
  cases hst with
  | writerOk wi _ _ n h => exact connWriterSend_ok_inv _ _ _ _ hinv h
  | writerCollision wi _ _ h => exact connWriterSend_fatal_inv _ _ _ hinv h
  | readerConsume _ n => exact mapInv_filter _ _ hinv
  | reapStale _ now => exact mapInv_filter _ _ hinv
  | drainOnReset _ => exact ⟨fun p hp => absurd hp (List.not_mem_nil p), List.nodup_nil⟩

/-- C1: in every state reachable from a fresh connection, the
pending-response map has at most one entry per nonce and every entry's
nonce is nonzero (an invariant every step preserves); the writer's nonce
counter increments by one per request-reply item, wrapping from
`2^32 - 1` directly to `1` (zero is skipped); a request-reply item is
assigned exactly the new counter value and inserted under it, while a
fire-and-forget item is assigned wire nonce `0` and the map is left
untouched. -/
theorem claim1_nonce_invariants :
    (∀ s : ConnState, Relation.ReflTransGen ConnStep connInit s → ConnInv s) ∧
    (∀ s s' : ConnState, ConnInv s → ConnStep s s' → ConnInv s') ∧
    (∀ n : Nat, n + 2 ≤ U32 → nextNonceStep n = n + 1) ∧
    nextNonceStep (U32 - 1) = 1 ∧
    (∀ (s : ConnState) (wi : ClientWorkItem), wi.resp = none →
      connWriterSend s wi = .ok s 0) ∧
    (∀ (s s' : ConnState) (wi : ClientWorkItem) (w : Nat), wi.resp ≠ none →
      connWriterSend s wi = .ok s' w →
      w = nextNonceStep s.nextNonce ∧ s'.nextNonce = nextNonceStep s.nextNonce ∧
      s'.pendingResponses = (w, wi) :: s.pendingResponses) := by
  refine ⟨?_, connStep_preserves, ?_, by decide, ?_, ?_⟩
  · intro s h
    induction h with
    | refl => exact connInv_init
    | tail _ hbc ih => exact connStep_preserves _ _ ih hbc
  · intro n h
    show (if (n + 1) % U32 = 0 then 1 else (n + 1) % U32) = n + 1
    have hm : (n + 1) % U32 = n + 1 := Nat.mod_eq_of_lt (by omega)
    rw [hm, if_neg (by omega)]
  · intro s wi h
    unfold connWriterSend
    rw [h]
  · intro s s' wi w hne h
    unfold connWriterSend at h
    cases hresp : wi.resp with
    | none => exact absurd hresp hne
    | some r =>
      rw [hresp] at h
      dsimp only at h
      cases hl : s.pendingResponses.lookup (nextNonceStep s.nextNonce) with
      | some w' =>
        rw [hl] at h
        cases h
      | none =>
        rw [hl] at h
        cases h
        exact ⟨rfl, rfl, rfl⟩

/-- Witness for C1: the initial state, a state reached by one
request-reply writer step, and the counter's first increment. -/
theorem claim1_witness :
    ConnInv connInit ∧
    ConnInv (⟨1, [(1, (⟨0, some 0, none, 5⟩ : ClientWorkItem))]⟩ : ConnState) ∧
    nextNonceStep 5 = 6 ∧
    connWriterSend connInit ⟨7, none, some 0, 5⟩ = .ok connInit 0 ∧
    1 = nextNonceStep 0 := by
  have h1 := claim1_nonce_invariants.1 connInit Relation.ReflTransGen.refl
  have hstep : ConnStep connInit ⟨1, [(1, ⟨0, some 0, none, 5⟩)]⟩ :=
    ConnStep.writerOk ⟨0, some 0, none, 5⟩ connInit
      ⟨1, [(1, ⟨0, some 0, none, 5⟩)]⟩ 1 (by decide)
  have h2 := claim1_nonce_invariants.2.1 connInit ⟨1, [(1, ⟨0, some 0, none, 5⟩)]⟩ h1 hstep
  have h3 := claim1_nonce_invariants.2.2.1 5 (by decide)
  have h5 := claim1_nonce_invariants.2.2.2.2.1 connInit ⟨7, none, some 0, 5⟩ rfl
  have h6 := (claim1_nonce_invariants.2.2.2.2.2 connInit ⟨1, [(1, ⟨0, some 0, none, 5⟩)]⟩
      ⟨0, some 0, none, 5⟩ 1 (by decide) (by decide)).1
  exact ⟨h1, h2, h3, h5, h6⟩

end Fastrpc
